import Mathlib

/-!
Shallow embedding of the grant scraper in src/scraper.py.

The program crawls a paginated listing site, builds Grant values from the
extracted field-sets, and persists them into three sqlite tables
(grants, genres, grant_genre).  The embedding models the sqlite state as
explicit lists of rows plus AUTOINCREMENT counters, the HTTP fetcher and
the HTML extractor as an abstract page behaviour (page index to either a
failing status or a list of raw field-sets), and the unbounded while-loop
of scrape_grants with an explicit fuel argument (one unit of fuel per
page iteration; running out of fuel returns none, meaning the loop is
still running after that many iterations).
-/

namespace LitContest

/-- Whitespace characters removed by Python str.strip (space, tab,
newline, carriage return, vertical tab, form feed). -/
def pyIsSpace (c : Char) : Bool :=
  c == ' ' || c == '\t' || c == '\n' || c == '\r' || c == Char.ofNat 11 || c == Char.ofNat 12

/-- Split a character list at every occurrence of sep, keeping empty
pieces, exactly like Python str.split with an explicit separator. -/
def splitChar (sep : Char) : List Char → List (List Char)
  | [] => [[]]
  | c :: cs =>
    match splitChar sep cs with
    | [] => [[]]
    | g :: gs => if c == sep then [] :: g :: gs else (c :: g) :: gs

/-- Python s.split(sep) for a one-character separator. -/
def pySplit (s : String) (sep : Char) : List String :=
  (splitChar sep s.toList).map fun cs => String.mk cs

/-- Remove leading and trailing Python whitespace from a character list. -/
def pyStripList (cs : List Char) : List Char :=
  (((cs.dropWhile pyIsSpace).reverse).dropWhile pyIsSpace).reverse

/-- Python s.strip() with no arguments. -/
def pyStrip (s : String) : String :=
  String.mk (pyStripList s.toList)

/-- The Grant value record (src/scraper.py lines 5-14).  The attrs class
has exactly eight attributes; extra_info models the optional dynamic
attribute consulted by hasattr at line 108.  The class constructor never
sets it, so every Grant built by the scraper carries extra_info = none
(hasattr false). -/
structure Grant where
  issuer : String
  title : String
  cash_prize : String
  entry_fee : String
  deadline : String
  genres : String
  description : String
  read_more_link : String
  extra_info : Option String
deriving DecidableEq

/-- A row of the grants table (schema at lines 82-98): surrogate id,
the eight text columns, and the optional extra_info column (NULL when
the insert does not supply it). -/
structure GrantRow where
  id : Nat
  issuer : String
  title : String
  cash_prize : String
  entry_fee : String
  deadline : String
  genres : String
  description : String
  read_more_link : String
  extra_info : Option String
deriving DecidableEq

/-- A row of the genres table (lines 25-32): surrogate id and unique name. -/
structure GenreRow where
  id : Nat
  name : String
deriving DecidableEq

/-- A row of the grant_genre association table (lines 34-44). -/
structure GrantGenreRow where
  grant_id : Nat
  genre_id : Nat
deriving DecidableEq

/-- The sqlite database state: the three tables in storage (insertion)
order plus the AUTOINCREMENT counters for the two surrogate-id columns.
sqlite assigns ids starting at 1. -/
structure DB where
  grants : List GrantRow
  grants_next_id : Nat
  genres : List GenreRow
  genres_next_id : Nat
  grant_genre : List GrantGenreRow
deriving DecidableEq

/-- The state of Database('grants.db') opened on a fresh file: empty
tables, first AUTOINCREMENT id 1 for both surrogate columns. -/
def empty_db : DB := ⟨[], 1, [], 1, []⟩

/-- GenreManager.add_genre (lines 46-50): INSERT OR IGNORE INTO genres
(name).  The UNIQUE constraint on name makes the insert a no-op when the
name is already present; otherwise a new row with the next id is added. -/
def add_genre (db : DB) (genre : String) : DB :=
  if db.genres.any (fun row => row.name == genre) then db
  else { db with
    genres := db.genres ++ [⟨db.genres_next_id, genre⟩],
    genres_next_id := db.genres_next_id + 1 }

/-- GenreManager.get_genre_id (lines 52-57): SELECT id FROM genres WHERE
name = ?, returning the first matching row's id or None. -/
def get_genre_id (db : DB) (genre : String) : Option Nat :=
  (db.genres.find? (fun row => row.name == genre)).map GenreRow.id

/-- GenreManager.link_grant_to_genre (lines 59-66).  The Python guard
`if genre_id:` is falsy both for None (name not registered) and for the
integer 0, so both cases skip the link; otherwise INSERT OR IGNORE into
grant_genre, a no-op when the (grant_id, genre_id) pair already exists. -/
def link_grant_to_genre (db : DB) (grant_id : Nat) (genre : String) : DB :=
  match get_genre_id db genre with
  | none => db
  | some genre_id =>
    if genre_id == 0 then db
    else if db.grant_genre.any
        (fun r => r.grant_id == grant_id && r.genre_id == genre_id) then db
    else { db with grant_genre := db.grant_genre ++ [⟨grant_id, genre_id⟩] }

/-- GenreManager.get_genres_for_grant (lines 68-74): the names of the
genres joined to a grant through grant_genre, in association order. -/
def get_genres_for_grant (db : DB) (grant_id : Nat) : List String :=
  (db.grant_genre.filter (fun r => r.grant_id == grant_id)).filterMap
    (fun r => (db.genres.find? (fun row => row.id == r.genre_id)).map GenreRow.name)

/-- Whether a stored row collides with a record on the natural key: the
UNIQUE(issuer, title, deadline) constraint of the grants table. -/
def same_key (r : GrantRow) (g : Grant) : Bool :=
  r.issuer == g.issuer && r.title == g.title && r.deadline == g.deadline

/-- Whether inserting the record would violate the natural-key UNIQUE
constraint, which is what raises sqlite3.IntegrityError at line 121. -/
def natural_key_conflict (db : DB) (g : Grant) : Bool :=
  db.grants.any (fun r => same_key r g)

/-- The line printed by the except branch at line 130. -/
def dup_message (g : Grant) : String :=
  "Grant already exists: " ++ g.title ++ " by " ++ g.issuer ++
    " with deadline " ++ g.deadline

/-- The genre names extracted from the raw genres text at lines 124-126:
split on commas, strip each piece, keep only the non-empty pieces. -/
def clean_genres (genres : String) : List String :=
  ((pySplit genres ',').map pyStrip).filter (fun g => !(g == ""))

/-- The genre loop body of insert_grant (lines 124-128): for each clean
genre name, add_genre then link_grant_to_genre against the new grant id. -/
def ingest_genres (db : DB) (grant_id : Nat) (names : List String) : DB :=
  names.foldl (fun d n => link_grant_to_genre (add_genre d n) grant_id n) db

/-- The outcome of a Database.insert_grant call: the database afterwards,
the lines printed, and the value the Python method returns to its caller.
insert_grant has no return statement, so ret is the implicit None. -/
structure InsertResult where
  db : DB
  printed : List String
  ret : Option Nat
deriving DecidableEq

/-- The grants-table row a successful insert stores: the next surrogate
id, the eight record fields, and the extra_info column (supplied only
when the attribute exists, NULL otherwise, which coincides with storing
g.extra_info). -/
def new_row (db : DB) (g : Grant) : GrantRow :=
  ⟨db.grants_next_id, g.issuer, g.title, g.cash_prize, g.entry_fee,
    g.deadline, g.genres, g.description, g.read_more_link, g.extra_info⟩

/-- The success path of insert_grant (lines 104-128): INSERT the row with
the next surrogate id, read last_insert_rowid, then run the genre loop. -/
def insert_grant_row (db : DB) (g : Grant) : DB :=
  let db1 : DB := { db with
    grants := db.grants ++ [new_row db g],
    grants_next_id := db.grants_next_id + 1 }
  ingest_genres db1 db.grants_next_id (clean_genres g.genres)

/-- Database.insert_grant (lines 100-130) when the storage medium raises
no environmental fault: the INSERT raises sqlite3.IntegrityError exactly
when the natural key collides, the except branch prints the duplicate
line and leaves every table unchanged, and the method returns None in
both branches. -/
def insert_grant (db : DB) (g : Grant) : InsertResult :=
  if natural_key_conflict db g then
    { db := db, printed := [dup_message g], ret := none }
  else
    { db := insert_grant_row db g, printed := [], ret := none }

/-- A persistence-layer fault the INSERT at line 121 can raise: the
natural-key UNIQUE violation, another integrity-constraint violation
(also raised as sqlite3.IntegrityError), or an operational fault such as
an unavailable storage medium (raised outside the IntegrityError class). -/
inductive StorageFault where
  | naturalKeyViolation : StorageFault
  | otherIntegrity : String → StorageFault
  | operational : String → StorageFault
deriving DecidableEq

/-- Whether the fault is raised as an instance of sqlite3.IntegrityError,
the only exception class the except clause at line 129 catches. -/
def isIntegrityError : StorageFault → Bool
  | .naturalKeyViolation => true
  | .otherIntegrity _ => true
  | .operational _ => false

/-- Database.insert_grant with the storage medium's behaviour made
explicit: env is an environmental fault the INSERT raises (none for a
healthy medium, in which case only the natural-key collision can raise).
A raised fault is caught by the except clause exactly when it is an
sqlite3.IntegrityError, producing the duplicate report with every table
unchanged; any other fault escapes the method (Except.error). -/
def insert_grant_run (env : Option StorageFault) (db : DB) (g : Grant) :
    Except StorageFault InsertResult :=
  let raised : Option StorageFault :=
    match env with
    | some f => some f
    | none => if natural_key_conflict db g then some .naturalKeyViolation else none
  match raised with
  | some f =>
    if isIntegrityError f then .ok { db := db, printed := [dup_message g], ret := none }
    else .error f
  | none => .ok { db := insert_grant_row db g, printed := [], ret := none }

/-- Database.fetch_all_grants (lines 132-141): every stored grant row in
storage order, paired with its resolved genre names. -/
def fetch_all_grants (db : DB) : List (GrantRow × List String) :=
  db.grants.map (fun row => (row, get_genres_for_grant db row.id))

/-- The module-level ingest loop (lines 214-216): insert every scraped
grant into the database in order. -/
def ingest (db : DB) (gs : List Grant) : DB :=
  gs.foldl (fun d g => (insert_grant d g).db) db

/-- One raw field-set located by the extractor on a page (one
div.views-row, lines 180-189): for each field, the element text if the
element is present, or none if the corresponding find(...) returned
None. -/
structure RawFieldSet where
  issuer : Option String
  title : Option String
  cash_prize : Option String
  entry_fee : Option String
  deadline : Option String
  genres : Option String
  description : Option String
  read_more_link : Option String
deriving DecidableEq

/-- What fetching and extracting one page yields: a non-200 status code
(lines 162-164), or the list of raw field-sets found (lines 170-175). -/
inductive PageResult where
  | fetchFailure : Nat → PageResult
  | fetched : List RawFieldSet → PageResult

/-- The uncaught exception raised while building a Grant from a raw
field-set: an AttributeError from calling a method on the None returned
by a failed find (lines 181-188), or the TypeError from subscripting
None with a missing read-more anchor (line 189). -/
inductive ExtractError where
  | attrError : String → ExtractError
  | subscriptError : ExtractError
deriving DecidableEq

/-- Building one canonical Grant from a raw field-set (lines 181-200):
each text field is stripped, the read-more href is prefixed with the base
origin, and the constructor sets no extra_info attribute.  A missing
element raises (Except.error) instead of producing a record. -/
def canon_field_set (origin : String) (r : RawFieldSet) : Except ExtractError Grant :=
  match r.issuer with
  | none => .error (.attrError "issuer")
  | some issuer =>
  match r.title with
  | none => .error (.attrError "title")
  | some title =>
  match r.cash_prize with
  | none => .error (.attrError "cash_prize")
  | some cash_prize =>
  match r.entry_fee with
  | none => .error (.attrError "entry_fee")
  | some entry_fee =>
  match r.deadline with
  | none => .error (.attrError "deadline")
  | some deadline =>
  match r.genres with
  | none => .error (.attrError "genres")
  | some genres =>
  match r.description with
  | none => .error (.attrError "description")
  | some description =>
  match r.read_more_link with
  | none => .error .subscriptError
  | some href =>
    .ok ⟨pyStrip issuer, pyStrip title, pyStrip cash_prize, pyStrip entry_fee,
      pyStrip deadline, pyStrip genres, pyStrip description, origin ++ href, none⟩

/-- The per-record loop of scrape_grants over one page's field-sets
(lines 180-201): build each Grant in order; the first raised error
escapes the loop (and the whole function). -/
def canon_list (origin : String) : List RawFieldSet → Except ExtractError (List Grant)
  | [] => .ok []
  | r :: rs =>
    match canon_field_set origin r with
    | .error e => .error e
    | .ok g =>
      match canon_list origin rs with
      | .error e => .error e
      | .ok gs => .ok (g :: gs)

/-- The base origin hardcoded in the read-more normalization at line 199. -/
def pw_origin : String := "https://www.pw.org"

/-- The while-True loop of scrape_grants (lines 156-206) with explicit
fuel (one unit per page iteration).  none means the loop is still running
after fuel iterations; some (Except.ok gs) means it returned the
accumulated grants; some (Except.error e) means an extraction error
escaped the function. -/
def scrape_loop (fuel : Nat) (beh : Nat → PageResult) (page : Nat)
    (acc : List Grant) : Option (Except ExtractError (List Grant)) :=
  match fuel with
  | 0 => none
  | fuel' + 1 =>
    match beh page with
    | .fetchFailure _ => some (.ok acc)
    | .fetched fss =>
      if fss.length == 0 then some (.ok acc)
      else
        match canon_list pw_origin fss with
        | .error e => some (.error e)
        | .ok gs => scrape_loop fuel' beh (page + 1) (acc ++ gs)

/-- scrape_grants (lines 147-206): run the crawl from page 0 with an
empty accumulator. -/
def scrape_grants (fuel : Nat) (beh : Nat → PageResult) :
    Option (Except ExtractError (List Grant)) :=
  scrape_loop fuel beh 0 []

/-- Whether a page makes the loop break: a non-success status (line 162)
or zero extracted field-sets (line 173). -/
def stops : PageResult → Bool
  | .fetchFailure _ => true
  | .fetched fss => fss.isEmpty

/-- Whether a computation raised an escaped extraction error. -/
def is_error {α : Type} : Except ExtractError α → Bool
  | .error _ => true
  | .ok _ => false

/-- Whether the crawl aborted with an escaped extraction error. -/
def aborted : Option (Except ExtractError (List Grant)) → Bool
  | some (.error _) => true
  | _ => false

/-- Whether a page keeps the loop running normally: a successful fetch
with at least one field-set, all of which canonicalize. -/
def page_ok : PageResult → Bool
  | .fetchFailure _ => false
  | .fetched fss => !fss.isEmpty && !(is_error (canon_list pw_origin fss))

/-- The grants a page contributes to the accumulator. -/
def page_grants (beh : Nat → PageResult) (k : Nat) : List Grant :=
  match beh k with
  | .fetchFailure _ => []
  | .fetched fss => ((canon_list pw_origin fss).toOption).getD []

/-- The grants collected from pages 0 up to n-1. -/
def collected (beh : Nat → PageResult) : Nat → List Grant
  | 0 => []
  | n + 1 => collected beh n ++ page_grants beh n

/-- The grants collected from the m pages starting at page p. -/
def collected_from (beh : Nat → PageResult) (p : Nat) : Nat → List Grant
  | 0 => []
  | m + 1 => page_grants beh p ++ collected_from beh (p + 1) m

/-- A raw field-set lacking one of the seven required text fields. -/
def missing_required (r : RawFieldSet) : Bool :=
  r.issuer.isNone || r.title.isNone || r.cash_prize.isNone ||
    r.entry_fee.isNone || r.deadline.isNone || r.genres.isNone ||
    r.description.isNone

/-- The genre ids linked to a grant, in association order. -/
def gid_links (db : DB) (grant_id : Nat) : List Nat :=
  (db.grant_genre.filter (fun r => r.grant_id == grant_id)).map GrantGenreRow.genre_id

/-- The name of the genre row holding a given id, if any. -/
def name_of_id (db : DB) (i : Nat) : Option String :=
  (db.genres.find? (fun row => row.id == i)).map GenreRow.name

/-- Well-formedness of the genres table, true of every state the program
reaches: surrogate ids pairwise distinct, names pairwise distinct (the
UNIQUE constraint), ids at least 1 and below the AUTOINCREMENT counter,
and the counter itself at least 1. -/
def genres_wf (db : DB) : Prop :=
  (db.genres.map GenreRow.id).Nodup ∧
  (db.genres.map GenreRow.name).Nodup ∧
  (∀ row ∈ db.genres, 1 ≤ row.id ∧ row.id < db.genres_next_id) ∧
  1 ≤ db.genres_next_id

/-- Invariant tying a grant id to the vocabulary state: the genres table
is well-formed, the genre ids linked to the grant are pairwise distinct
(the UNIQUE pair constraint), and each of them references a genre row. -/
def genre_state_ok (db : DB) (grant_id : Nat) : Prop :=
  genres_wf db ∧ (gid_links db grant_id).Nodup ∧
  ∀ i ∈ gid_links db grant_id, ∃ row ∈ db.genres, row.id = i

/-- A fully populated raw field-set used in concrete runs. -/
def fs_good : RawFieldSet :=
  ⟨some "A", some "T", some "$500", some "$20", some "June 1",
    some "Fiction", some "Desc", some "/g/1"⟩

/-- fs_good with the required title element missing. -/
def fs_bad_title : RawFieldSet := { fs_good with title := none }

/-- The canonical Grant scrape_grants builds from fs_good. -/
def gW : Grant :=
  ⟨"A", "T", "$500", "$20", "June 1", "Fiction", "Desc",
    "https://www.pw.org/g/1", none⟩

/-- A fresh concrete grant record used in concrete insert runs. -/
def g_fresh : Grant :=
  ⟨"I", "T", "P", "F", "D", "G", "Desc", "L", none⟩

/-- The database after inserting g_fresh into the fresh store. -/
def db_one : DB := (insert_grant empty_db g_fresh).db

/-- The grant of the spec's genre-split example: raw genres text
"Fiction, , Poetry,Fiction". -/
def fiction_grant : Grant :=
  ⟨"LitOrg", "Prize", "$100", "$0", "June", "Fiction, , Poetry,Fiction",
    "d", "L", none⟩

/-- A behaviour whose page 0 holds a malformed field-set followed by a
well-formed one, with the end of results on page 1. -/
def beh_c6 : Nat → PageResult :=
  fun n => if n == 0 then .fetched [fs_bad_title, fs_good] else .fetched []

/-- A behaviour whose page 0 holds one malformed field-set and whose
page 1 fails to fetch: the least stopping index is 1. -/
def beh_c7 : Nat → PageResult :=
  fun n => if n == 0 then .fetched [fs_bad_title] else .fetchFailure 404

/-- A behaviour with one well-formed record on page 0 and the end of
results on page 1. -/
def behW : Nat → PageResult :=
  fun n => if n == 0 then .fetched [fs_good] else .fetched []

/-! Structural lemmas about the vocabulary operations. -/

theorem add_genre_grants (db : DB) (n : String) :
    (add_genre db n).grants = db.grants := by
  unfold add_genre; split <;> rfl

theorem add_genre_grants_next_id (db : DB) (n : String) :
    (add_genre db n).grants_next_id = db.grants_next_id := by
  unfold add_genre; split <;> rfl

theorem add_genre_grant_genre (db : DB) (n : String) :
    (add_genre db n).grant_genre = db.grant_genre := by
  unfold add_genre; split <;> rfl

theorem link_grants (db : DB) (gid : Nat) (n : String) :
    (link_grant_to_genre db gid n).grants = db.grants := by
  unfold link_grant_to_genre
  cases get_genre_id db n with
  | none => rfl
  | some i =>
    dsimp only
    split
    · rfl
    · split <;> rfl

theorem link_grants_next_id (db : DB) (gid : Nat) (n : String) :
    (link_grant_to_genre db gid n).grants_next_id = db.grants_next_id := by
  unfold link_grant_to_genre
  cases get_genre_id db n with
  | none => rfl
  | some i =>
    dsimp only
    split
    · rfl
    · split <;> rfl

theorem link_genres (db : DB) (gid : Nat) (n : String) :
    (link_grant_to_genre db gid n).genres = db.genres := by
  unfold link_grant_to_genre
  cases get_genre_id db n with
  | none => rfl
  | some i =>
    dsimp only
    split
    · rfl
    · split <;> rfl

theorem ingest_genres_grants (L : List String) (db : DB) (gid : Nat) :
    (ingest_genres db gid L).grants = db.grants := by
  induction L generalizing db with
  | nil => rfl
  | cons n L ih =>
    show (ingest_genres (link_grant_to_genre (add_genre db n) gid n) gid L).grants = _
    rw [ih, link_grants, add_genre_grants]

theorem ingest_genres_grants_next_id (L : List String) (db : DB) (gid : Nat) :
    (ingest_genres db gid L).grants_next_id = db.grants_next_id := by
  induction L generalizing db with
  | nil => rfl
  | cons n L ih =>
    show (ingest_genres (link_grant_to_genre (add_genre db n) gid n) gid L).grants_next_id = _
    rw [ih, link_grants_next_id, add_genre_grants_next_id]

theorem insert_grant_row_grants (db : DB) (g : Grant) :
    (insert_grant_row db g).grants = db.grants ++ [new_row db g] := by
  unfold insert_grant_row
  rw [ingest_genres_grants]

theorem insert_grant_row_grants_next_id (db : DB) (g : Grant) :
    (insert_grant_row db g).grants_next_id = db.grants_next_id + 1 := by
  unfold insert_grant_row
  rw [ingest_genres_grants_next_id]

/-! Natural-key lemmas. -/

theorem insert_dup_eq (db : DB) (g : Grant) (h : natural_key_conflict db g = true) :
    insert_grant db g = { db := db, printed := [dup_message g], ret := none } := by
  unfold insert_grant
  rw [h]
  rfl

theorem insert_fresh_eq (db : DB) (g : Grant) (h : natural_key_conflict db g = false) :
    insert_grant db g = { db := insert_grant_row db g, printed := [], ret := none } := by
  unfold insert_grant
  rw [h]
  rfl

theorem same_key_new_row (db : DB) (g : Grant) : same_key (new_row db g) g = true := by
  simp [same_key, new_row]

theorem conflict_insert_grant (db : DB) (g g' : Grant)
    (h : natural_key_conflict db g = true) :
    natural_key_conflict (insert_grant db g').db g = true := by
  unfold insert_grant
  split
  · exact h
  · show natural_key_conflict (insert_grant_row db g') g = true
    unfold natural_key_conflict at h ⊢
    rw [insert_grant_row_grants, List.any_append, h]
    rfl

theorem conflict_self_insert (db : DB) (g : Grant) :
    natural_key_conflict (insert_grant db g).db g = true := by
  unfold insert_grant
  by_cases h : natural_key_conflict db g = true
  · rw [h]; exact h
  · rw [Bool.not_eq_true] at h
    rw [h]
    show natural_key_conflict (insert_grant_row db g) g = true
    unfold natural_key_conflict
    rw [insert_grant_row_grants, List.any_append]
    simp [same_key_new_row]

theorem conflict_ingest (db : DB) (gs : List Grant) (g : Grant)
    (h : natural_key_conflict db g = true) :
    natural_key_conflict (ingest db gs) g = true := by
  induction gs generalizing db with
  | nil => exact h
  | cons g' gs ih =>
    show natural_key_conflict (ingest (insert_grant db g').db gs) g = true
    exact ih _ (conflict_insert_grant db g g' h)

theorem all_keys_present (db : DB) (gs : List Grant) :
    ∀ g ∈ gs, natural_key_conflict (ingest db gs) g = true := by
  induction gs generalizing db with
  | nil => intro g hg; cases hg
  | cons g' gs ih =>
    intro g hg
    cases hg with
    | head =>
      exact conflict_ingest _ gs g' (conflict_self_insert db g')
    | tail _ hmem =>
      exact ih (insert_grant db g').db g hmem

theorem ingest_fixed (db : DB) (gs : List Grant)
    (h : ∀ g ∈ gs, natural_key_conflict db g = true) :
    ingest db gs = db := by
  induction gs with
  | nil => rfl
  | cons g' gs ih =>
    show ingest (insert_grant db g').db gs = db
    rw [insert_dup_eq db g' (h g' (List.mem_cons_self _ _))]
    exact ih fun g hg => h g (List.mem_cons_of_mem _ hg)

/-! Claim theorems: the Grant Store. -/

/-- Claim C1: inserting a grant whose (issuer, title, deadline) triple is
already stored is reported as a duplicate (the printed DuplicateKey
line), is non-fatal (the call returns normally, Except.ok), and leaves
the store, in particular the grants table, unchanged. -/
theorem duplicate_insert_reported (db : DB) (g : Grant)
    (h : natural_key_conflict db g = true) :
    insert_grant_run none db g =
      .ok { db := db, printed := [dup_message g], ret := none } := by
  unfold insert_grant_run
  rw [h]
  rfl

/-- Witness for C1: a concrete duplicate insert against the store holding
that grant already. -/
theorem duplicate_insert_reported_witness :
    insert_grant_run none db_one g_fresh =
      .ok { db := db_one, printed := [dup_message g_fresh], ret := none } :=
  duplicate_insert_reported db_one g_fresh rfl

/-- Claim C2: ingest is idempotent.  Running the ingest loop a second
time over the same list leaves the whole store (hence the grants table
and its row count) exactly as after the first run, and each insert of
the second pass is a duplicate report changing nothing and returning
None. -/
theorem ingest_idempotent (db : DB) (gs : List Grant) :
    ingest (ingest db gs) gs = ingest db gs ∧
    ∀ g ∈ gs, insert_grant (ingest db gs) g =
      { db := ingest db gs, printed := [dup_message g], ret := none } := by
  constructor
  · exact ingest_fixed _ gs (all_keys_present db gs)
  · intro g hg
    exact insert_dup_eq _ g (all_keys_present db gs g hg)

/-- Witness for C2: re-ingesting a concrete one-record list changes
nothing and its only second-pass insert is reported as a duplicate. -/
theorem ingest_idempotent_witness :
    insert_grant (ingest empty_db [g_fresh]) g_fresh =
      { db := ingest empty_db [g_fresh], printed := [dup_message g_fresh], ret := none } :=
  (ingest_idempotent empty_db [g_fresh]).2 g_fresh (List.mem_cons_self _ _)

/-- Claim C9: an insert that fails on the natural-key collision performs
no genre registration and no grant-to-genre link: the genres table, its
id counter and the grant_genre table are exactly as before the call. -/
theorem duplicate_insert_no_genre_side_effects (db : DB) (g : Grant)
    (h : natural_key_conflict db g = true) :
    (insert_grant db g).db.genres = db.genres ∧
    (insert_grant db g).db.genres_next_id = db.genres_next_id ∧
    (insert_grant db g).db.grant_genre = db.grant_genre := by
  rw [insert_dup_eq db g h]
  exact ⟨rfl, rfl, rfl⟩

/-- Witness for C9: a concrete duplicate insert leaves the vocabulary
tables of the populated store unchanged. -/
theorem duplicate_insert_no_genre_side_effects_witness :
    (insert_grant db_one g_fresh).db.genres = db_one.genres ∧
    (insert_grant db_one g_fresh).db.genres_next_id = db_one.genres_next_id ∧
    (insert_grant db_one g_fresh).db.grant_genre = db_one.grant_genre :=
  duplicate_insert_no_genre_side_effects db_one g_fresh rfl

/-- Counterexample to claim C3: a storage fault that is not the
natural-key collision, here a foreign-key integrity violation, is raised
as sqlite3.IntegrityError and therefore caught by the broad except
clause: the call returns normally with the duplicate report instead of
propagating the fault. -/
theorem integrity_swallow_counterexample :
    insert_grant_run (some (.otherIntegrity "FOREIGN KEY constraint failed"))
        empty_db g_fresh =
      .ok { db := empty_db, printed := [dup_message g_fresh], ret := none } ∧
    StorageFault.otherIntegrity "FOREIGN KEY constraint failed" ≠
      StorageFault.naturalKeyViolation := by
  exact ⟨rfl, by intro h; cases h⟩

/-- Claim C3 as amended: insert_grant propagates exactly the storage
faults raised outside the sqlite3.IntegrityError class (for example an
unavailable storage medium); every IntegrityError, whether or not it is
the natural-key collision, is swallowed by the except clause and
reported as the duplicate case with the store unchanged. -/
theorem fault_propagation (f : StorageFault) (db : DB) (g : Grant) :
    (isIntegrityError f = false → insert_grant_run (some f) db g = .error f) ∧
    (isIntegrityError f = true → insert_grant_run (some f) db g =
      .ok { db := db, printed := [dup_message g], ret := none }) := by
  constructor
  · intro h
    unfold insert_grant_run
    dsimp only
    rw [h]
    rfl
  · intro h
    unfold insert_grant_run
    dsimp only
    rw [h]
    rfl

/-- Witness for C3 (amended): a concrete operational fault propagates to
the caller. -/
theorem fault_propagation_witness :
    insert_grant_run (some (.operational "storage medium unavailable"))
        empty_db g_fresh =
      .error (.operational "storage medium unavailable") :=
  (fault_propagation (.operational "storage medium unavailable") empty_db g_fresh).1 rfl

/-- Counterexample to claim C4: inserting a fresh record into the fresh
store does persist one row under the newly assigned surrogate id 1, but
the call returns None to its caller (the Python method has no return
statement), not the id. -/
theorem insert_return_counterexample :
    (insert_grant empty_db g_fresh).db.grants.map GrantRow.id = [1] ∧
    (insert_grant empty_db g_fresh).ret = none ∧
    (insert_grant empty_db g_fresh).ret ≠ some 1 := by
  refine ⟨rfl, rfl, ?_⟩
  intro h
  cases h

/-- Claim C4 as amended: for a record whose natural key is not yet
stored, insert_grant succeeds, appending exactly one row holding the
record's fields under the next surrogate id; the id is used internally
to link genres but the method returns None to its caller, printing
nothing. -/
theorem insert_success_returns_none (db : DB) (g : Grant)
    (h : natural_key_conflict db g = false) :
    (insert_grant db g).db.grants = db.grants ++ [new_row db g] ∧
    (insert_grant db g).db.grants_next_id = db.grants_next_id + 1 ∧
    (insert_grant db g).printed = [] ∧
    (insert_grant db g).ret = none := by
  rw [insert_fresh_eq db g h]
  exact ⟨insert_grant_row_grants db g, insert_grant_row_grants_next_id db g, rfl, rfl⟩

/-- Witness for C4 (amended): the concrete fresh insert stores the row
and returns None. -/
theorem insert_success_returns_none_witness :
    (insert_grant empty_db fiction_grant).db.grants =
      empty_db.grants ++ [new_row empty_db fiction_grant] ∧
    (insert_grant empty_db fiction_grant).db.grants_next_id =
      empty_db.grants_next_id + 1 ∧
    (insert_grant empty_db fiction_grant).printed = [] ∧
    (insert_grant empty_db fiction_grant).ret = none :=
  insert_success_returns_none empty_db fiction_grant rfl

/-- Claim C8: the canonical Grant built from a raw field-set stores the
base origin prefixed to the raw read-more link (with every text field
stripped and no extra_info); in particular the relative link
"/grants/123" under the base origin "https://example.org" is stored as
"https://example.org/grants/123". -/
theorem read_more_link_normalized
    (origin i t c f d ge de href : String) :
    canon_field_set origin
        ⟨some i, some t, some c, some f, some d, some ge, some de, some href⟩ =
      .ok ⟨pyStrip i, pyStrip t, pyStrip c, pyStrip f, pyStrip d, pyStrip ge,
        pyStrip de, origin ++ href, none⟩ ∧
    (canon_field_set "https://example.org"
        { fs_good with read_more_link := some "/grants/123" }).map
        Grant.read_more_link =
      .ok "https://example.org/grants/123" := by
  exact ⟨rfl, rfl⟩

/-! Crawl-controller lemmas. -/

theorem canon_error_of_missing (origin : String) (r : RawFieldSet)
    (h : missing_required r = true) :
    is_error (canon_field_set origin r) = true := by
  cases r with
  | mk issuer title cash_prize entry_fee deadline genres description link =>
    cases issuer with
    | none => rfl
    | some i =>
    cases title with
    | none => rfl
    | some t =>
    cases cash_prize with
    | none => rfl
    | some c =>
    cases entry_fee with
    | none => rfl
    | some f =>
    cases deadline with
    | none => rfl
    | some d =>
    cases genres with
    | none => rfl
    | some ge =>
    cases description with
    | none => rfl
    | some de =>
      simp [missing_required] at h

theorem canon_list_error_of_mem (origin : String) (fss : List RawFieldSet)
    (r : RawFieldSet) (hr : r ∈ fss)
    (he : is_error (canon_field_set origin r) = true) :
    is_error (canon_list origin fss) = true := by
  induction fss with
  | nil => cases hr
  | cons a t ih =>
    cases hr with
    | head =>
      unfold canon_list
      cases hc : canon_field_set origin r with
      | error e => rfl
      | ok g => rw [hc] at he; cases he
    | tail _ hmem =>
      unfold canon_list
      cases hc : canon_field_set origin a with
      | error e => rfl
      | ok g =>
        dsimp only
        have ht := ih hmem
        cases hl : canon_list origin t with
        | error e => rfl
        | ok gs => rw [hl] at ht; cases ht

theorem collected_from_snoc (beh : Nat → PageResult) (m : Nat) :
    ∀ p, collected_from beh p (m + 1) =
      collected_from beh p m ++ page_grants beh (p + m) := by
  induction m with
  | zero => intro p; simp [collected_from]
  | succ m ih =>
    intro p
    show page_grants beh p ++ collected_from beh (p + 1) (m + 1) = _
    rw [ih (p + 1)]
    show _ = (page_grants beh p ++ collected_from beh (p + 1) m) ++ _
    rw [List.append_assoc]
    have : p + 1 + m = p + (m + 1) := by omega
    rw [this]

theorem collected_eq_from (beh : Nat → PageResult) (n : Nat) :
    collected beh n = collected_from beh 0 n := by
  induction n with
  | zero => rfl
  | succ n ih =>
    show collected beh n ++ page_grants beh n = _
    rw [ih, collected_from_snoc beh n 0]
    rw [Nat.zero_add]

theorem scrape_loop_fail (fuel : Nat) (beh : Nat → PageResult) (page : Nat)
    (acc : List Grant) (s : Nat) (hb : beh page = .fetchFailure s) :
    scrape_loop (fuel + 1) beh page acc = some (.ok acc) := by
  conv_lhs => unfold scrape_loop
  rw [hb]

theorem scrape_loop_empty (fuel : Nat) (beh : Nat → PageResult) (page : Nat)
    (acc : List Grant) (hb : beh page = .fetched []) :
    scrape_loop (fuel + 1) beh page acc = some (.ok acc) := by
  conv_lhs => unfold scrape_loop
  rw [hb]
  rfl

theorem scrape_loop_error (fuel : Nat) (beh : Nat → PageResult) (page : Nat)
    (acc : List Grant) (fss : List RawFieldSet) (e : ExtractError)
    (hb : beh page = .fetched fss) (hlen : (fss.length == 0) = false)
    (hc : canon_list pw_origin fss = .error e) :
    scrape_loop (fuel + 1) beh page acc = some (.error e) := by
  conv_lhs => unfold scrape_loop
  rw [hb]
  simp only [hlen, Bool.false_eq_true, if_false, hc]

theorem scrape_loop_step (fuel : Nat) (beh : Nat → PageResult) (page : Nat)
    (acc : List Grant) (fss : List RawFieldSet) (gs : List Grant)
    (hb : beh page = .fetched fss) (hlen : (fss.length == 0) = false)
    (hc : canon_list pw_origin fss = .ok gs) :
    scrape_loop (fuel + 1) beh page acc = scrape_loop fuel beh (page + 1) (acc ++ gs) := by
  conv_lhs => unfold scrape_loop
  rw [hb]
  simp only [hlen, Bool.false_eq_true, if_false, hc]

theorem page_ok_elim (beh : Nat → PageResult) (p : Nat)
    (hp : page_ok (beh p) = true) :
    ∃ fss gs, beh p = .fetched fss ∧ (fss.length == 0) = false ∧
      canon_list pw_origin fss = .ok gs ∧ page_grants beh p = gs := by
  cases hb : beh p with
  | fetchFailure s => rw [hb] at hp; cases hp
  | fetched fss =>
    rw [hb] at hp
    unfold page_ok at hp
    rw [Bool.and_eq_true, Bool.not_eq_true', Bool.not_eq_true'] at hp
    obtain ⟨hne, herr⟩ := hp
    obtain ⟨gs, hc⟩ : ∃ gs, canon_list pw_origin fss = .ok gs := by
      cases hl : canon_list pw_origin fss with
      | error e => rw [hl] at herr; cases herr
      | ok gs => exact ⟨gs, rfl⟩
    have hlen : (fss.length == 0) = false := by
      cases fss
      · cases hne
      · rfl
    refine ⟨fss, gs, rfl, hlen, hc, ?_⟩
    unfold page_grants
    rw [hb]
    simp only [hc]
    rfl

theorem scrape_loop_run (m : Nat) :
    ∀ (beh : Nat → PageResult) (p : Nat) (acc : List Grant),
      stops (beh (p + m)) = true →
      (∀ k, k < m → page_ok (beh (p + k)) = true) →
      scrape_loop (m + 1) beh p acc = some (.ok (acc ++ collected_from beh p m)) ∧
      scrape_loop m beh p acc = none := by
  induction m with
  | zero =>
    intro beh p acc hstop _
    refine ⟨?_, rfl⟩
    rw [Nat.add_zero] at hstop
    show scrape_loop (0 + 1) beh p acc = some (.ok (acc ++ []))
    rw [List.append_nil]
    cases hb : beh p with
    | fetchFailure s => exact scrape_loop_fail 0 beh p acc s hb
    | fetched fss =>
      rw [hb] at hstop
      have : fss = [] := List.isEmpty_iff.mp hstop
      subst this
      exact scrape_loop_empty 0 beh p acc hb
  | succ m ih =>
    intro beh p acc hstop hrun
    have hp : page_ok (beh (p + 0)) = true := hrun 0 (Nat.succ_pos m)
    rw [Nat.add_zero] at hp
    obtain ⟨fss, gs, hb, hlen, hc, hpg⟩ := page_ok_elim beh p hp
    have hstop' : stops (beh (p + 1 + m)) = true := by
      have harith : p + 1 + m = p + (m + 1) := by omega
      rw [harith]; exact hstop
    have hrun' : ∀ k, k < m → page_ok (beh (p + 1 + k)) = true := by
      intro k hk
      have harith : p + 1 + k = p + (k + 1) := by omega
      rw [harith]
      exact hrun (k + 1) (Nat.succ_lt_succ hk)
    constructor
    · rw [scrape_loop_step (m + 1) beh p acc fss gs hb hlen hc,
        (ih beh (p + 1) (acc ++ gs) hstop' hrun').1]
      show _ = some (.ok (acc ++ (page_grants beh p ++ collected_from beh (p + 1) m)))
      rw [hpg, List.append_assoc]
    · rw [scrape_loop_step m beh p acc fss gs hb hlen hc]
      exact (ih beh (p + 1) (acc ++ gs) hstop' hrun').2

theorem scrape_loop_no_stop (fuel : Nat) :
    ∀ (beh : Nat → PageResult) (p : Nat) (acc : List Grant),
      (∀ n, page_ok (beh n) = true) →
      scrape_loop fuel beh p acc = none := by
  induction fuel with
  | zero => intros; rfl
  | succ fuel ih =>
    intro beh p acc hall
    obtain ⟨fss, gs, hb, hlen, hc, _⟩ := page_ok_elim beh p (hall p)
    rw [scrape_loop_step fuel beh p acc fss gs hb hlen hc]
    exact ih beh (p + 1) (acc ++ gs) hall

/-! Claim theorems: the crawl controller. -/

/-- Counterexample to claim C6: on a page whose extractor output holds a
field-set lacking the required title followed by a fully well-formed
field-set, the crawl does not skip the malformed record and continue: the
unhandled error escapes scrape_grants and no grants at all are returned,
even though the remaining field-set canonicalizes fine on its own. -/
theorem malformed_record_counterexample :
    scrape_grants 2 beh_c6 = some (.error (.attrError "title")) ∧
    canon_list pw_origin [fs_good] = .ok [gW] :=
  ⟨rfl, rfl⟩

/-- Claim C6 as amended: whenever the crawl processes a page whose
extractor output contains a raw field-set lacking a required field, the
canonicalization error escapes scrape_grants: the record is not skipped,
the rest of the page and all subsequent pages are not processed, and the
crawl aborts with the error instead of returning grants. -/
theorem malformed_record_aborts (beh : Nat → PageResult) (fuel page : Nat)
    (acc : List Grant) (fss : List RawFieldSet) (r : RawFieldSet)
    (hpage : beh page = .fetched fss) (hr : r ∈ fss)
    (hmiss : missing_required r = true) :
    aborted (scrape_loop (fuel + 1) beh page acc) = true := by
  have herr : is_error (canon_list pw_origin fss) = true :=
    canon_list_error_of_mem _ fss r hr (canon_error_of_missing _ r hmiss)
  have hlen : (fss.length == 0) = false := by
    cases fss
    · cases hr
    · rfl
  cases hc : canon_list pw_origin fss with
  | error e =>
    rw [scrape_loop_error fuel beh page acc fss e hpage hlen hc]
    rfl
  | ok gs => rw [hc] at herr; cases herr

/-- Witness for C6 (amended): the concrete malformed page aborts the
crawl. -/
theorem malformed_record_aborts_witness :
    aborted (scrape_loop 2 beh_c6 0 []) = true :=
  malformed_record_aborts beh_c6 1 0 [] [fs_bad_title, fs_good] fs_bad_title
    rfl (List.mem_cons_self _ _) rfl

/-- Counterexample to claim C7: under the behaviour whose page 0 holds a
single field-set lacking the required title and whose page 1 fails to
fetch, the least stopping index is N = 1, yet the crawl does not visit
pages 0 and 1 and return the grants of page 0: it aborts on page 0 with
the unhandled extraction error. -/
theorem crawl_counterexample :
    stops (beh_c7 0) = false ∧ stops (beh_c7 1) = true ∧
    scrape_grants 2 beh_c7 = some (.error (.attrError "title")) ∧
    scrape_grants 2 beh_c7 ≠ some (.ok (collected beh_c7 1)) := by
  refine ⟨rfl, rfl, rfl, ?_⟩
  intro h
  exact Except.noConfusion (Option.some.inj h)

/-- Claim C7 as amended: if N is the least page index at which the
fetcher returns a non-success status or the extractor returns zero
field-sets, and every field-set on pages 0..N-1 canonicalizes, then the
crawl terminates after visiting exactly pages 0..N (fuel N+1 returns,
fuel N is still running) and returns the grants collected from pages
0..N-1; and if every page keeps the loop running (successful fetch,
non-empty, all records canonicalize) the controller imposes no bound:
the loop is still running after any number of iterations. -/
theorem crawl_termination :
    (∀ (beh : Nat → PageResult) (N : Nat),
      stops (beh N) = true →
      (∀ k, k < N → page_ok (beh k) = true) →
      scrape_grants (N + 1) beh = some (.ok (collected beh N)) ∧
      scrape_grants N beh = none) ∧
    (∀ (beh : Nat → PageResult),
      (∀ n, page_ok (beh n) = true) →
      ∀ fuel, scrape_grants fuel beh = none) := by
  constructor
  · intro beh N hstop hrun
    have h0 : stops (beh (0 + N)) = true := by rw [Nat.zero_add]; exact hstop
    have h1 : ∀ k, k < N → page_ok (beh (0 + k)) = true := by
      intro k hk; rw [Nat.zero_add]; exact hrun k hk
    have := scrape_loop_run N beh 0 [] h0 h1
    rw [collected_eq_from]
    exact ⟨this.1, this.2⟩
  · intro beh hall fuel
    exact scrape_loop_no_stop fuel beh 0 [] hall

/-- Witness for C7 (amended): the concrete behaviour with one good page
and the end of results on page 1 terminates with fuel 2, is still
running with fuel 1, and returns exactly the page-0 grants. -/
theorem crawl_termination_witness :
    scrape_grants 2 behW = some (.ok (collected behW 1)) ∧
    scrape_grants 1 behW = none :=
  crawl_termination.1 behW 1 rfl
    (fun k hk => by
      have hk0 : k = 0 := Nat.lt_one_iff.mp hk
      subst hk0
      rfl)

/-! Lemmas for the extra_info column. -/

theorem canon_extra_none (origin : String) (r : RawFieldSet) (g : Grant)
    (h : canon_field_set origin r = .ok g) : g.extra_info = none := by
  cases r with
  | mk issuer title cash_prize entry_fee deadline genres description link =>
    cases issuer with
    | none => cases h
    | some i =>
    cases title with
    | none => cases h
    | some t =>
    cases cash_prize with
    | none => cases h
    | some c =>
    cases entry_fee with
    | none => cases h
    | some f =>
    cases deadline with
    | none => cases h
    | some d =>
    cases genres with
    | none => cases h
    | some ge =>
    cases description with
    | none => cases h
    | some de =>
    cases link with
    | none => cases h
    | some href =>
      cases h
      rfl

theorem canon_list_extra_none (origin : String) (fss : List RawFieldSet)
    (gs : List Grant) (h : canon_list origin fss = .ok gs) :
    ∀ g ∈ gs, g.extra_info = none := by
  induction fss generalizing gs with
  | nil =>
    cases h
    intro g hg
    cases hg
  | cons a t ih =>
    unfold canon_list at h
    cases hc : canon_field_set origin a with
    | error e => rw [hc] at h; cases h
    | ok g0 =>
      rw [hc] at h
      dsimp only at h
      cases hl : canon_list origin t with
      | error e => rw [hl] at h; cases h
      | ok gs0 =>
        rw [hl] at h
        cases h
        intro g hg
        cases hg with
        | head => exact canon_extra_none origin a g0 hc
        | tail _ hmem => exact ih gs0 hl g hmem

theorem scrape_extra_none (fuel : Nat) :
    ∀ (beh : Nat → PageResult) (p : Nat) (acc gs : List Grant),
      (∀ g ∈ acc, g.extra_info = none) →
      scrape_loop fuel beh p acc = some (.ok gs) →
      ∀ g ∈ gs, g.extra_info = none := by
  induction fuel with
  | zero => intro beh p acc gs _ h; cases h
  | succ fuel ih =>
    intro beh p acc gs hacc h
    cases hb : beh p with
    | fetchFailure s =>
      rw [scrape_loop_fail fuel beh p acc s hb] at h
      cases h
      exact hacc
    | fetched fss =>
      cases fss with
      | nil =>
        rw [scrape_loop_empty fuel beh p acc hb] at h
        cases h
        exact hacc
      | cons a t =>
        have hlen : (((a :: t).length == 0)) = false := rfl
        cases hc : canon_list pw_origin (a :: t) with
        | error e =>
          rw [scrape_loop_error fuel beh p acc (a :: t) e hb hlen hc] at h
          cases h
        | ok gs0 =>
          rw [scrape_loop_step fuel beh p acc (a :: t) gs0 hb hlen hc] at h
          refine ih beh (p + 1) (acc ++ gs0) gs ?_ h
          intro g hg
          rcases List.mem_append.mp hg with hg | hg
          · exact hacc g hg
          · exact canon_list_extra_none pw_origin (a :: t) gs0 hc g hg

theorem ingest_extra_none (gs : List Grant) :
    ∀ (db : DB), (∀ g ∈ gs, g.extra_info = none) →
      (∀ r ∈ db.grants, r.extra_info = none) →
      ∀ r ∈ (ingest db gs).grants, r.extra_info = none := by
  induction gs with
  | nil => intro db _ hdb; exact hdb
  | cons g gs ih =>
    intro db hgs hdb
    show ∀ r ∈ (ingest (insert_grant db g).db gs).grants, r.extra_info = none
    refine ih (insert_grant db g).db (fun g' hg' => hgs g' (List.mem_cons_of_mem _ hg')) ?_
    intro r hr
    by_cases hc : natural_key_conflict db g = true
    · rw [insert_dup_eq db g hc] at hr
      exact hdb r hr
    · rw [Bool.not_eq_true] at hc
      rw [insert_fresh_eq db g hc] at hr
      dsimp only at hr
      rw [insert_grant_row_grants db g] at hr
      rcases List.mem_append.mp hr with hr | hr
      · exact hdb r hr
      · rcases List.mem_singleton.mp hr with rfl
        exact hgs g (List.mem_cons_self _ _)

/-- Claim C10: every grant the pipeline persists has an absent extra_info
column.  The Grants scrape_grants builds carry no extra_info attribute,
so the insert never supplies the optional column, and fetch_all_grants
over a store fed only by the pipeline returns every row with extra_info
absent. -/
theorem pipeline_extra_info_absent (beh : Nat → PageResult) (fuel : Nat)
    (gs : List Grant) (h : scrape_grants fuel beh = some (.ok gs)) :
    (∀ g ∈ gs, g.extra_info = none) ∧
    (∀ p ∈ fetch_all_grants (ingest empty_db gs), p.1.extra_info = none) := by
  have h1 := scrape_extra_none fuel beh 0 [] gs (fun g hg => by cases hg) h
  refine ⟨h1, ?_⟩
  intro p hp
  obtain ⟨row, hrow, hpe⟩ := List.mem_map.mp hp
  have h2 := ingest_extra_none gs empty_db h1 (fun r hr => by cases hr) row hrow
  rw [← hpe]
  exact h2

/-- Witness for C10: the grant scraped from the concrete one-page
behaviour carries no extra_info. -/
theorem pipeline_extra_info_absent_witness : gW.extra_info = none :=
  (pipeline_extra_info_absent behW 2 [gW] rfl).1 gW (List.mem_cons_self _ _)

/-! Vocabulary-store lemmas for the genre-linking claim. -/

theorem link_genres_next_id (db : DB) (gid : Nat) (n : String) :
    (link_grant_to_genre db gid n).genres_next_id = db.genres_next_id := by
  unfold link_grant_to_genre
  cases get_genre_id db n with
  | none => rfl
  | some i =>
    dsimp only
    split
    · rfl
    · split <;> rfl

theorem get_genres_eq (db : DB) (gid : Nat) :
    get_genres_for_grant db gid = (gid_links db gid).filterMap (name_of_id db) := by
  unfold get_genres_for_grant gid_links name_of_id
  rw [List.filterMap_map]
  rfl

theorem find_of_map_nodup {α β : Type} [BEq β] [LawfulBEq β] (f : α → β) (b : β) :
    ∀ (l : List α), (l.map f).Nodup → ∀ r ∈ l, f r = b →
      l.find? (fun x => f x == b) = some r := by
  intro l
  induction l with
  | nil => intro _ r hr; cases hr
  | cons a t ih =>
    intro hn r hr hb
    rw [List.map_cons, List.nodup_cons] at hn
    obtain ⟨ha, ht⟩ := hn
    cases hr with
    | head => exact List.find?_cons_of_pos t (by simp [hb])
    | tail _ hmem =>
      have hne : ¬ ((f a == b) = true) := by
        simp only [beq_iff_eq]
        intro hfa
        exact ha (by rw [hfa, ← hb]; exact List.mem_map_of_mem f hmem)
      rw [List.find?_cons_of_neg t hne]
      exact ih ht r hmem hb

theorem filterMap_congr_mem {α β : Type} (f g : α → Option β) :
    ∀ (l : List α), (∀ a ∈ l, f a = g a) → l.filterMap f = l.filterMap g := by
  intro l
  induction l with
  | nil => intro _; rfl
  | cons a t ih =>
    intro h
    rw [List.filterMap_cons, List.filterMap_cons, h a (List.mem_cons_self _ _),
      ih (fun x hx => h x (List.mem_cons_of_mem _ hx))]

theorem find?_append_left {α : Type} (p : α → Bool) (l1 l2 : List α) (a : α)
    (h : l1.find? p = some a) : (l1 ++ l2).find? p = some a := by
  rw [List.find?_append, h]
  rfl

theorem find?_append_right {α : Type} (p : α → Bool) (l1 l2 : List α)
    (h : l1.find? p = none) : (l1 ++ l2).find? p = l2.find? p := by
  rw [List.find?_append, h]
  rfl

theorem name_of_id_elim (d : DB) (i : Nat) (m : String)
    (h : name_of_id d i = some m) :
    ∃ row ∈ d.genres, row.id = i ∧ row.name = m := by
  unfold name_of_id at h
  cases hf : d.genres.find? (fun row => row.id == i) with
  | none => rw [hf] at h; cases h
  | some row =>
    rw [hf] at h
    refine ⟨row, List.mem_of_find?_eq_some hf, ?_, ?_⟩
    · have hp := List.find?_some hf
      exact beq_iff_eq.mp hp
    · cases h; rfl

theorem names_nodup (d : DB) (gid : Nat) (hok : genre_state_ok d gid) :
    (get_genres_for_grant d gid).Nodup := by
  obtain ⟨⟨hids, hnames, _, _⟩, hlinks, _⟩ := hok
  rw [get_genres_eq]
  refine List.Nodup.filterMap ?_ hlinks
  intro i j m hmi hmj
  rw [Option.mem_def] at hmi hmj
  obtain ⟨r1, hr1, hid1, hn1⟩ := name_of_id_elim d i m hmi
  obtain ⟨r2, hr2, hid2, hn2⟩ := name_of_id_elim d j m hmj
  have hreq : r1 = r2 := List.inj_on_of_nodup_map hnames hr1 hr2 (by rw [hn1, hn2])
  rw [← hid1, ← hid2, hreq]

theorem link_eq_skip (d : DB) (gid : Nat) (n : String) (i : Nat)
    (hget : get_genre_id d n = some i) (h0 : (i == 0) = false)
    (hpair : d.grant_genre.any (fun r => r.grant_id == gid && r.genre_id == i) = true) :
    link_grant_to_genre d gid n = d := by
  unfold link_grant_to_genre
  rw [hget]
  simp only [h0, Bool.false_eq_true, if_false, hpair, if_true]

theorem link_eq_add (d : DB) (gid : Nat) (n : String) (i : Nat)
    (hget : get_genre_id d n = some i) (h0 : (i == 0) = false)
    (hpair : d.grant_genre.any (fun r => r.grant_id == gid && r.genre_id == i) = false) :
    link_grant_to_genre d gid n =
      { d with grant_genre := d.grant_genre ++ [⟨gid, i⟩] } := by
  unfold link_grant_to_genre
  rw [hget]
  simp only [h0, Bool.false_eq_true, if_false, hpair]

theorem add_genre_eq_skip (d : DB) (n : String)
    (h : d.genres.any (fun row => row.name == n) = true) :
    add_genre d n = d := by
  unfold add_genre
  rw [if_pos h]

theorem add_genre_eq_new (d : DB) (n : String)
    (h : d.genres.any (fun row => row.name == n) = false) :
    add_genre d n = { d with
      genres := d.genres ++ [⟨d.genres_next_id, n⟩],
      genres_next_id := d.genres_next_id + 1 } := by
  unfold add_genre
  rw [if_neg (by simp [h])]

theorem gid_links_append_pair (d : DB) (l : List GrantGenreRow) (gid i : Nat) :
    gid_links { d with grant_genre := l ++ [⟨gid, i⟩] } gid =
      (l.filter (fun r => r.grant_id == gid)).map GrantGenreRow.genre_id ++ [i] := by
  show ((l ++ [(⟨gid, i⟩ : GrantGenreRow)]).filter
    (fun r => r.grant_id == gid)).map GrantGenreRow.genre_id = _
  rw [List.filter_append, List.map_append]
  have hsingle : List.filter (fun r => r.grant_id == gid) [(⟨gid, i⟩ : GrantGenreRow)] =
      [⟨gid, i⟩] := by simp [List.filter]
  rw [hsingle]
  rfl

theorem in_links_of_any_true (d : DB) (gid i : Nat)
    (h : d.grant_genre.any (fun r => r.grant_id == gid && r.genre_id == i) = true) :
    i ∈ gid_links d gid := by
  rw [List.any_eq_true] at h
  obtain ⟨r, hr, hp⟩ := h
  rw [Bool.and_eq_true] at hp
  obtain ⟨h1, h2⟩ := hp
  unfold gid_links
  exact List.mem_map.mpr ⟨r, List.mem_filter.mpr ⟨hr, h1⟩, beq_iff_eq.mp h2⟩

theorem not_in_links_of_any_false (d : DB) (gid i : Nat)
    (h : d.grant_genre.any (fun r => r.grant_id == gid && r.genre_id == i) = false) :
    i ∉ gid_links d gid := by
  intro hmem
  obtain ⟨r, hr, hri⟩ := List.mem_map.mp hmem
  rw [List.mem_filter] at hr
  obtain ⟨hrg, hpred⟩ := hr
  rw [List.any_eq_false] at h
  refine h r hrg ?_
  rw [Bool.and_eq_true]
  exact ⟨hpred, by simp [hri]⟩

theorem filter_map_links (l : List GrantGenreRow) (gid i : Nat) :
    ((l ++ [(⟨gid, i⟩ : GrantGenreRow)]).filter (fun r => r.grant_id == gid)).map
        GrantGenreRow.genre_id =
      (l.filter (fun r => r.grant_id == gid)).map GrantGenreRow.genre_id ++ [i] := by
  rw [List.filter_append, List.map_append]
  have hsingle : List.filter (fun r => r.grant_id == gid) [(⟨gid, i⟩ : GrantGenreRow)] =
      [⟨gid, i⟩] := by simp [List.filter]
  rw [hsingle]
  rfl

theorem ensure_link_step (d : DB) (gid : Nat) (n : String)
    (hok : genre_state_ok d gid) :
    genre_state_ok (link_grant_to_genre (add_genre d n) gid n) gid ∧
    ∀ m, m ∈ get_genres_for_grant (link_grant_to_genre (add_genre d n) gid n) gid ↔
      (m = n ∨ m ∈ get_genres_for_grant d gid) := by
  obtain ⟨⟨hids, hnames, hbound, hnext⟩, hlinks, hvalid⟩ := hok
  by_cases hex : d.genres.any (fun row => row.name == n) = true
  case pos =>
    rw [add_genre_eq_skip d n hex]
    obtain ⟨row, hrow, hrown⟩ : ∃ row ∈ d.genres, row.name = n := by
      rw [List.any_eq_true] at hex
      obtain ⟨row, hrow, hp⟩ := hex
      exact ⟨row, hrow, beq_iff_eq.mp hp⟩
    have hget : get_genre_id d n = some row.id := by
      unfold get_genre_id
      rw [find_of_map_nodup GenreRow.name n d.genres hnames row hrow hrown]
      rfl
    have h0 : (row.id == 0) = false := by
      rw [beq_eq_false_iff_ne]
      have h1 := (hbound row hrow).1
      omega
    have hname_row : name_of_id d row.id = some n := by
      unfold name_of_id
      rw [find_of_map_nodup GenreRow.id row.id d.genres hids row hrow rfl]
      simp [hrown]
    by_cases hpair : d.grant_genre.any
        (fun r => r.grant_id == gid && r.genre_id == row.id) = true
    case pos =>
      rw [link_eq_skip d gid n row.id hget h0 hpair]
      refine ⟨⟨⟨hids, hnames, hbound, hnext⟩, hlinks, hvalid⟩, ?_⟩
      intro m
      have hnS : n ∈ get_genres_for_grant d gid := by
        rw [get_genres_eq]
        exact List.mem_filterMap.mpr
          ⟨row.id, in_links_of_any_true d gid row.id hpair, hname_row⟩
      constructor
      · exact fun hm => Or.inr hm
      · intro hm
        rcases hm with he | hm
        · rw [he]; exact hnS
        · exact hm
    case neg =>
      rw [Bool.not_eq_true] at hpair
      rw [link_eq_add d gid n row.id hget h0 hpair]
      have hfreshlink : row.id ∉ gid_links d gid :=
        not_in_links_of_any_false d gid row.id hpair
      have hlinks2 : gid_links
          { d with grant_genre := d.grant_genre ++ [⟨gid, row.id⟩] } gid =
          gid_links d gid ++ [row.id] := filter_map_links d.grant_genre gid row.id
      have hnm2 : name_of_id { d with grant_genre := d.grant_genre ++ [⟨gid, row.id⟩] } =
          name_of_id d := rfl
      constructor
      · refine ⟨⟨hids, hnames, hbound, hnext⟩, ?_, ?_⟩
        · rw [hlinks2, List.nodup_append]
          refine ⟨hlinks, List.nodup_singleton _, ?_⟩
          intro x hx hx1
          rw [List.mem_singleton] at hx1
          subst hx1
          exact hfreshlink hx
        · rw [hlinks2]
          intro i hi
          rcases List.mem_append.mp hi with hi | hi
          · exact hvalid i hi
          · rw [List.mem_singleton] at hi
            subst hi
            exact ⟨row, hrow, rfl⟩
      · intro m
        rw [get_genres_eq, hlinks2, hnm2, List.filterMap_append]
        have hsing : List.filterMap (name_of_id d) [row.id] = [n] := by
          simp [List.filterMap_cons, hname_row]
        rw [hsing, ← get_genres_eq d gid, List.mem_append, List.mem_singleton]
        tauto
  case neg =>
    rw [Bool.not_eq_true] at hex
    have hnotmem : ∀ row ∈ d.genres, ¬ ((row.name == n) = true) :=
      List.any_eq_false.mp hex
    have hfind_name_old : d.genres.find? (fun row => row.name == n) = none :=
      List.find?_eq_none.mpr hnotmem
    have hfind_id_old : d.genres.find? (fun r => r.id == d.genres_next_id) = none := by
      rw [List.find?_eq_none]
      intro x hx
      simp only [beq_iff_eq]
      have h2 := (hbound x hx).2
      omega
    have e : link_grant_to_genre (add_genre d n) gid n =
        { d with
          genres := d.genres ++ [⟨d.genres_next_id, n⟩],
          genres_next_id := d.genres_next_id + 1,
          grant_genre := d.grant_genre ++ [⟨gid, d.genres_next_id⟩] } := by
      rw [add_genre_eq_new d n hex]
      have hget : get_genre_id { d with
          genres := d.genres ++ [⟨d.genres_next_id, n⟩],
          genres_next_id := d.genres_next_id + 1 } n = some d.genres_next_id := by
        show ((d.genres ++ [(⟨d.genres_next_id, n⟩ : GenreRow)]).find?
          (fun row => row.name == n)).map GenreRow.id = some d.genres_next_id
        rw [find?_append_right _ _ _ hfind_name_old]
        simp [List.find?]
      have h0 : (d.genres_next_id == 0) = false := by
        rw [beq_eq_false_iff_ne]
        omega
      have hpair : ({ d with
          genres := d.genres ++ [⟨d.genres_next_id, n⟩],
          genres_next_id := d.genres_next_id + 1 } : DB).grant_genre.any
          (fun r => r.grant_id == gid && r.genre_id == d.genres_next_id) = false := by
        show d.grant_genre.any
          (fun r => r.grant_id == gid && r.genre_id == d.genres_next_id) = false
        rw [List.any_eq_false]
        intro r hr hcon
        rw [Bool.and_eq_true] at hcon
        have hi : d.genres_next_id ∈ gid_links d gid := by
          unfold gid_links
          exact List.mem_map.mpr
            ⟨r, List.mem_filter.mpr ⟨hr, hcon.1⟩, beq_iff_eq.mp hcon.2⟩
        obtain ⟨row0, hrow0, hid0⟩ := hvalid _ hi
        have h2 := (hbound row0 hrow0).2
        omega
      rw [link_eq_add _ gid n d.genres_next_id hget h0 hpair]
    rw [e]
    have hlinks2 : gid_links { d with
        genres := d.genres ++ [⟨d.genres_next_id, n⟩],
        genres_next_id := d.genres_next_id + 1,
        grant_genre := d.grant_genre ++ [⟨gid, d.genres_next_id⟩] } gid =
        gid_links d gid ++ [d.genres_next_id] :=
      filter_map_links d.grant_genre gid d.genres_next_id
    have hname2 : ∀ i ∈ gid_links d gid,
        name_of_id { d with
          genres := d.genres ++ [⟨d.genres_next_id, n⟩],
          genres_next_id := d.genres_next_id + 1,
          grant_genre := d.grant_genre ++ [⟨gid, d.genres_next_id⟩] } i =
          name_of_id d i := by
      intro i hi
      obtain ⟨row, hrow, hid⟩ := hvalid i hi
      have hfind : d.genres.find? (fun r => r.id == i) = some row :=
        find_of_map_nodup GenreRow.id i d.genres hids row hrow hid
      show ((d.genres ++ [(⟨d.genres_next_id, n⟩ : GenreRow)]).find?
        (fun r => r.id == i)).map GenreRow.name = name_of_id d i
      rw [find?_append_left _ _ _ _ hfind]
      unfold name_of_id
      rw [hfind]
    have hname_new : name_of_id { d with
        genres := d.genres ++ [⟨d.genres_next_id, n⟩],
        genres_next_id := d.genres_next_id + 1,
        grant_genre := d.grant_genre ++ [⟨gid, d.genres_next_id⟩] }
        d.genres_next_id = some n := by
      show ((d.genres ++ [(⟨d.genres_next_id, n⟩ : GenreRow)]).find?
        (fun r => r.id == d.genres_next_id)).map GenreRow.name = some n
      rw [find?_append_right _ _ _ hfind_id_old]
      simp [List.find?]
    have hfresh_id : d.genres_next_id ∉ gid_links d gid := by
      intro hi
      obtain ⟨row, hrow, hid⟩ := hvalid _ hi
      have h2 := (hbound row hrow).2
      omega
    constructor
    · refine ⟨⟨?_, ?_, ?_, ?_⟩, ?_, ?_⟩
      · show (List.map GenreRow.id (d.genres ++ [⟨d.genres_next_id, n⟩])).Nodup
        rw [List.map_append, List.nodup_append]
        refine ⟨hids, List.nodup_singleton _, ?_⟩
        intro x hx hx1
        simp at hx1
        subst hx1
        obtain ⟨row, hrow, hid⟩ := List.mem_map.mp hx
        have h2 := (hbound row hrow).2
        rw [hid] at h2
        omega
      · show (List.map GenreRow.name (d.genres ++ [⟨d.genres_next_id, n⟩])).Nodup
        rw [List.map_append, List.nodup_append]
        refine ⟨hnames, List.nodup_singleton _, ?_⟩
        intro x hx hx1
        simp at hx1
        subst hx1
        obtain ⟨row, hrow, hnm⟩ := List.mem_map.mp hx
        exact hnotmem row hrow (by simp [hnm])
      · show ∀ row ∈ d.genres ++ [⟨d.genres_next_id, n⟩],
          1 ≤ row.id ∧ row.id < d.genres_next_id + 1
        intro row hrow
        rcases List.mem_append.mp hrow with hrow | hrow
        · have h1 := hbound row hrow
          exact ⟨h1.1, by omega⟩
        · rw [List.mem_singleton] at hrow
          subst hrow
          refine ⟨?_, ?_⟩
          · show 1 ≤ d.genres_next_id
            exact hnext
          · show d.genres_next_id < d.genres_next_id + 1
            omega
      · show 1 ≤ d.genres_next_id + 1
        omega
      · rw [hlinks2, List.nodup_append]
        refine ⟨hlinks, List.nodup_singleton _, ?_⟩
        intro x hx hx1
        rw [List.mem_singleton] at hx1
        subst hx1
        exact hfresh_id hx
      · rw [hlinks2]
        intro i hi
        rcases List.mem_append.mp hi with hi | hi
        · obtain ⟨row, hrow, hid⟩ := hvalid i hi
          refine ⟨row, ?_, hid⟩
          show row ∈ d.genres ++ [⟨d.genres_next_id, n⟩]
          exact List.mem_append.mpr (Or.inl hrow)
        · rw [List.mem_singleton] at hi
          subst hi
          refine ⟨⟨d.genres_next_id, n⟩, ?_, rfl⟩
          show (⟨d.genres_next_id, n⟩ : GenreRow) ∈ d.genres ++ [⟨d.genres_next_id, n⟩]
          exact List.mem_append.mpr (Or.inr (List.mem_singleton.mpr rfl))
    · intro m
      rw [get_genres_eq, hlinks2, List.filterMap_append,
        filterMap_congr_mem _ (name_of_id d) (gid_links d gid) hname2]
      have hsing : List.filterMap (name_of_id { d with
          genres := d.genres ++ [⟨d.genres_next_id, n⟩],
          genres_next_id := d.genres_next_id + 1,
          grant_genre := d.grant_genre ++ [⟨gid, d.genres_next_id⟩] })
          [d.genres_next_id] = [n] := by
        simp [List.filterMap_cons, hname_new]
      rw [hsing, ← get_genres_eq d gid, List.mem_append, List.mem_singleton]
      tauto

theorem ingest_genres_spec (L : List String) :
    ∀ (d : DB) (gid : Nat), genre_state_ok d gid →
      genre_state_ok (ingest_genres d gid L) gid ∧
      ∀ m, m ∈ get_genres_for_grant (ingest_genres d gid L) gid ↔
        (m ∈ L ∨ m ∈ get_genres_for_grant d gid) := by
  induction L with
  | nil =>
    intro d gid h
    refine ⟨h, ?_⟩
    intro m
    constructor
    · exact fun hm => Or.inr hm
    · intro hm
      rcases hm with hm | hm
      · cases hm
      · exact hm
  | cons n L ih =>
    intro d gid h
    obtain ⟨h1, h2⟩ := ensure_link_step d gid n h
    obtain ⟨h3, h4⟩ := ih (link_grant_to_genre (add_genre d n) gid n) gid h1
    refine ⟨h3, ?_⟩
    intro m
    have hfold : ingest_genres d gid (n :: L) =
        ingest_genres (link_grant_to_genre (add_genre d n) gid n) gid L := rfl
    rw [hfold, h4 m, h2 m, List.mem_cons]
    tauto

theorem insert_grant_row_eq (db : DB) (g : Grant) :
    insert_grant_row db g =
      ingest_genres { db with
        grants := db.grants ++ [new_row db g],
        grants_next_id := db.grants_next_id + 1 } db.grants_next_id
        (clean_genres g.genres) := rfl

/-- Claim C5: for a record whose insert succeeds into a database with a
well-formed genres table and no dangling links for the fresh grant id,
the genre names linked to the new grant are exactly (as a set) the
comma-separated pieces of its raw genres text after stripping whitespace
and discarding empty pieces, with no genre linked twice; and in
particular the raw genres text "Fiction, , Poetry,Fiction" resolves to
exactly the genre names Fiction and Poetry. -/
theorem inserted_grant_genres (db : DB) (g : Grant)
    (hfresh : natural_key_conflict db g = false)
    (hwf : genres_wf db)
    (hnl : ∀ r ∈ db.grant_genre, r.grant_id ≠ db.grants_next_id) :
    (∀ m, m ∈ get_genres_for_grant (insert_grant db g).db db.grants_next_id ↔
      m ∈ clean_genres g.genres) ∧
    (get_genres_for_grant (insert_grant db g).db db.grants_next_id).Nodup ∧
    get_genres_for_grant (insert_grant empty_db fiction_grant).db 1 =
      ["Fiction", "Poetry"] := by
  have hdb : (insert_grant db g).db =
      ingest_genres { db with
        grants := db.grants ++ [new_row db g],
        grants_next_id := db.grants_next_id + 1 } db.grants_next_id
        (clean_genres g.genres) := by
    rw [insert_fresh_eq db g hfresh]
    rfl
  have hnil : gid_links { db with
      grants := db.grants ++ [new_row db g],
      grants_next_id := db.grants_next_id + 1 } db.grants_next_id = [] := by
    show (db.grant_genre.filter (fun r => r.grant_id == db.grants_next_id)).map
      GrantGenreRow.genre_id = []
    have hfil : List.filter (fun r => r.grant_id == db.grants_next_id)
        db.grant_genre = [] :=
      List.filter_eq_nil_iff.mpr (fun r hr => by
        simp only [beq_iff_eq]
        exact hnl r hr)
    rw [hfil]
    rfl
  have hok : genre_state_ok { db with
      grants := db.grants ++ [new_row db g],
      grants_next_id := db.grants_next_id + 1 } db.grants_next_id := by
    refine ⟨hwf, ?_, ?_⟩
    · rw [hnil]; exact List.nodup_nil
    · rw [hnil]; intro i hi; cases hi
  obtain ⟨hok2, hmem⟩ :=
    ingest_genres_spec (clean_genres g.genres) _ db.grants_next_id hok
  have hSnil : get_genres_for_grant { db with
      grants := db.grants ++ [new_row db g],
      grants_next_id := db.grants_next_id + 1 } db.grants_next_id = [] := by
    rw [get_genres_eq, hnil]
    rfl
  refine ⟨?_, ?_, ?_⟩
  · intro m
    rw [hdb, hmem m, hSnil]
    constructor
    · intro hm
      rcases hm with hm | hm
      · exact hm
      · cases hm
    · exact fun hm => Or.inl hm
  · rw [hdb]
    exact names_nodup _ _ hok2
  · rfl

/-- Witness for C5: the concrete insert of the spec's genre-split example
into the fresh store links exactly Fiction and Poetry. -/
theorem inserted_grant_genres_witness :
    get_genres_for_grant (insert_grant empty_db fiction_grant).db 1 =
      ["Fiction", "Poetry"] :=
  (inserted_grant_genres empty_db fiction_grant rfl
    ⟨List.nodup_nil, List.nodup_nil,
      fun r hr => absurd hr (List.not_mem_nil r), Nat.le_refl 1⟩
    (fun r hr => absurd hr (List.not_mem_nil r))).2.2

end LitContest
